import Mathlib

/-!
Icon Manager worker (`src/index.js`).

A shallow embedding of the request handlers of the worker and of the two
storage bindings it talks to, followed by the properties of the handlers.

Conventions of the embedding.

* A JavaScript string is a `List Char`.  Every string the worker sees (header
  values, form fields, URL components, the configured secret) is well-formed
  Unicode, and on well-formed strings the operations used by the worker
  (`includes`, `startsWith`, `replace` with a string pattern, `===`, template
  concatenation, the regular expression `^[a-zA-Z]+$`) agree with their
  code-unit versions.
* `env` holds the bindings of the worker and is also the persistent state: a
  handler that writes returns the environment after its writes.
* An `async` handler either resolves to a `Response` or rejects; a rejection
  is `Except.error`.
-/

namespace IconWorker

/-! ## Strings -/

abbrev JsString := List Char

abbrev Bytes := List UInt8

/-- The method `s.includes(t)`: `t` occurs in `s` as a contiguous substring. -/
def includes : JsString → JsString → Bool
  | [], t => t.isEmpty
  | c :: s, t => t.isPrefixOf (c :: s) || includes s t

/-- The method `s.startsWith(t)`. -/
def startsWith (s t : JsString) : Bool := t.isPrefixOf s

/-- The method `s.replace(pat, rep)` for a string pattern and a replacement without `$`:
only the first occurrence of `pat` is replaced. -/
def replace : JsString → JsString → JsString → JsString
  | [], pat, rep => if pat.isPrefixOf [] then rep else []
  | c :: s, pat, rep =>
    if pat.isPrefixOf (c :: s) then rep ++ (c :: s).drop pat.length
    else c :: replace s pat rep

/-- The character class `[a-zA-Z]`. -/
def isLetter (c : Char) : Bool := ('a' ≤ c && c ≤ 'z') || ('A' ≤ c && c ≤ 'Z')

/-- The test `/^[a-zA-Z]+$/.test(s)`: without the `m` flag `^` and `$` match only at the
two ends of the input, so the test holds exactly for a non-empty string of
ASCII letters. -/
def testLetters (s : JsString) : Bool := !s.isEmpty && s.all isLetter

/-! ## Headers -/

/-- ASCII lower-casing of a header name (`Headers` is case-insensitive). -/
def lower (s : JsString) : JsString := s.map Char.toLower

/-- A `Headers` object: pairs of a lower-cased name and a value. -/
abbrev Headers := List (JsString × JsString)

/-- The method `headers.set(name, value)`. -/
def Headers.set (hs : Headers) (name value : JsString) : Headers :=
  hs.filter (fun h => h.1 != lower name) ++ [(lower name, value)]

/-- The method `headers.get(name)`. -/
def Headers.get (hs : Headers) (name : JsString) : Option JsString :=
  hs.lookup (lower name)

/-- The `Headers` built from the object literal passed as `headers:`. -/
def Headers.ofInit (init : List (JsString × JsString)) : Headers :=
  init.foldl (fun hs h => hs.set h.1 h.2) []

/-! ## Requests -/

/-- A `File` form entry. -/
structure JsFile where
  name : JsString
  type : JsString
  bytes : Bytes

/-- A `FormData` entry value: a string or a `File`. -/
inductive FormValue where
  | str (s : JsString)
  | file (f : JsFile)

/-- JavaScript truthiness of a form value: a `File` is an object, a string is
truthy when it is not empty. -/
def FormValue.truthy : FormValue → Bool
  | .str s => !s.isEmpty
  | .file _ => true

/-- String conversion of a form value, as done by `RegExp.prototype.test` and
by a template literal. -/
def FormValue.toJsString : FormValue → JsString
  | .str s => s
  | .file _ => "[object File]".toList

/-- The bytes an object store keeps for a value handed to `put`: the content
of a `File`, the UTF-8 encoding of a string. -/
def FormValue.toBytes : FormValue → Bytes
  | .str s => s.flatMap String.utf8EncodeChar
  | .file f => f.bytes

abbrev FormData := List (JsString × FormValue)

/-- The method `formData.get(name)`: the first entry of that name, `null` if none. -/
def FormData.get (fd : FormData) (name : JsString) : Option FormValue :=
  fd.lookup name

/-- The parsed `request.url`. -/
structure URL where
  origin : JsString
  pathname : JsString

/-- An incoming request.  `cookie` is `request.headers.get('Cookie')`;
`formData` is what `await request.formData()` resolves to, `none` when it
rejects (no body, or a body that is not a form). -/
structure Request where
  method : JsString
  url : URL
  cookie : Option JsString
  formData : Option FormData

/-! ## Responses -/

/-- The two HTML documents of the worker, kept symbolic. -/
inductive Page where
  | htmlLogin
  | htmlUpload
  deriving DecidableEq

/-- One record of the `icons` array. -/
structure IconEntry where
  name : JsString
  url : JsString
  deriving DecidableEq

/-- The object `finalJson`. -/
structure Manifest where
  name : JsString
  description : JsString
  icons : List IconEntry
  deriving DecidableEq

/-- A response body.  `json m` stands for the text `JSON.stringify(m, null, 2)`. -/
inductive Body where
  | null
  | text (s : JsString)
  | page (p : Page)
  | json (m : Manifest)
  | bytes (b : Bytes)
  deriving DecidableEq

/-- A `Response`: `status` defaults to 200, `headers` are the ones the worker
sets itself. -/
structure Response where
  status : Nat := 200
  headers : Headers := []
  body : Body
  deriving DecidableEq

/-- The reasons a handler rejects. -/
inductive Rejection where
  | formDataError
  | typeError
  deriving DecidableEq

abbrev Result := Except Rejection Response

/-! ## Storage bindings -/

/-- An object returned by `ICON_BUCKET.get`. -/
structure R2Object where
  body : Bytes
  httpEtag : JsString
  httpMetadata : List (JsString × JsString)

/-- Modelled from the spec: the Object Store Adapter, an external collaborator
of the worker.  It is blob storage addressed by string key with `put(key,
bytes)` and `get(key) → bytes | absent`; etag and HTTP metadata are attached at
write time by the store (`etagOf`, `metadataOf`) and echoed at read time. -/
structure R2Bucket where
  objects : AList (fun _ : JsString => R2Object)
  etagOf : Bytes → JsString
  metadataOf : FormValue → List (JsString × JsString)

/-- The method `bucket.put(key, value)`. -/
def R2Bucket.put (b : R2Bucket) (key : JsString) (value : FormValue) : R2Bucket :=
  let object : R2Object := ⟨value.toBytes, b.etagOf value.toBytes, b.metadataOf value⟩
  ⟨AList.insert key object b.objects, b.etagOf, b.metadataOf⟩

/-- The method `bucket.get(key)`. -/
def R2Bucket.get (b : R2Bucket) (key : JsString) : Option R2Object :=
  AList.lookup key b.objects

/-- The method `object.writeHttpMetadata(headers)`: the stored metadata is set
header by header. -/
def R2Object.writeHttpMetadata (o : R2Object) (hs : Headers) : Headers :=
  o.httpMetadata.foldl (fun acc h => acc.set h.1 h.2) hs

/-- Modelled from the spec: the Directory Store Adapter, an external
collaborator of the worker.  It is a string-to-string mapping with `put(key,
value)`, `get(key) → value | absent` and `list() → all keys`. -/
abbrev KVNamespace := AList (fun _ : JsString => JsString)

/-- The method `kv.put(key, value)`. -/
def KVNamespace.put (kv : KVNamespace) (key value : JsString) : KVNamespace :=
  AList.insert key value kv

/-- The method `kv.get(key)`. -/
def KVNamespace.get (kv : KVNamespace) (key : JsString) : Option JsString :=
  AList.lookup key kv

/-- The array `(await kv.list()).keys`, each entry being its `name`. -/
def KVNamespace.list (kv : KVNamespace) : List JsString := kv.keys

/-- The bindings of the worker.  A binding that is not configured is
`undefined`, here `none`. -/
structure Env where
  ADMIN_PASSWORD : Option JsString
  ICON_BUCKET : Option R2Bucket
  ICON_KV : Option KVNamespace

/-- Interpolation `${v}` of a value that may be `undefined`. -/
def templateUndefined : Option JsString → JsString
  | some s => s
  | none => "undefined".toList

/-- Interpolation `${v}` of a value that may be `null`. -/
def templateNull : Option JsString → JsString
  | some s => s
  | none => "null".toList

/-! ## Handlers -/

/-- The truthiness of the value `cookie && cookie.includes(...)` returned by
`isAuthorized`: an absent (`null`) or empty cookie header is falsy. -/
def isAuthorized (request : Request) (env : Env) : Bool :=
  match request.cookie with
  | none => false
  | some cookie =>
    !cookie.isEmpty &&
      includes cookie ("auth_token=".toList ++ templateUndefined env.ADMIN_PASSWORD)

def handleAdminPage (request : Request) (env : Env) : Result :=
  if !isAuthorized request env then
    .ok { headers := Headers.ofInit [("Content-Type".toList, "text/html;charset=UTF-8".toList)],
          body := .page .htmlLogin }
  else
    .ok { headers := Headers.ofInit [("Content-Type".toList, "text/html;charset=UTF-8".toList)],
          body := .page .htmlUpload }

/-- The response of a successful login; `password` is the submitted string. -/
def loginRedirect (password : JsString) : Response :=
  { status := 302,
    headers := Headers.ofInit
      [("Set-Cookie".toList,
        "auth_token=".toList ++ password ++
          "; Path=/; HttpOnly; Max-Age=86400; SameSite=Lax".toList),
       ("Location".toList, "/".toList)],
    body := .null }

/-- The response of a failed login. -/
def loginForbidden : Response :=
  { status := 403,
    headers := Headers.ofInit [("Content-Type".toList, "text/html;charset=utf-8".toList)],
    body := .text "密码错误 <a href=\"/\">返回</a>".toList }

/-- The comparison `password === env.ADMIN_PASSWORD` holds only between two
equal strings: `null`, `undefined` and a `File` are never `===` to a string,
and `null !== undefined`. -/
def handleLoginAction (request : Request) (env : Env) : Result :=
  if request.method != "POST".toList then
    .ok { status := 405, body := .text "Method Not Allowed".toList }
  else
    match request.formData with
    | none => .error .formDataError
    | some formData =>
      let password := formData.get "password".toList
      match password, env.ADMIN_PASSWORD with
      | some (.str p), some secret =>
        if p = secret then .ok (loginRedirect p) else .ok loginForbidden
      | _, _ => .ok loginForbidden

/-- The upload handler.  `!file`, `!name` hold for `null` and for the empty
string.  A write through a binding that is `undefined` rejects with a
`TypeError`, after the writes made before it. -/
def handleUploadAction (request : Request) (env : Env) : Result × Env :=
  if !isAuthorized request env then
    (.ok { status := 401, body := .text "Unauthorized".toList }, env)
  else
    match request.formData with
    | none => (.error .formDataError, env)
    | some formData =>
      let file := formData.get "file".toList
      let name := formData.get "name".toList
      match file, name with
      | some file, some name =>
        if !file.truthy || !name.truthy || !testLetters name.toJsString then
          (.ok { status := 400, body := .text "参数错误或名称包含非字母字符".toList }, env)
        else
          let filename := name.toJsString ++ ".png".toList
          match env.ICON_BUCKET with
          | none => (.error .typeError, env)
          | some bucket =>
            let env1 := { env with ICON_BUCKET := some (bucket.put filename file) }
            match env.ICON_KV with
            | none => (.error .typeError, env1)
            | some kv =>
              (.ok { body := .text "OK".toList },
               { env1 with ICON_KV := some (kv.put name.toJsString filename) })
      | _, _ =>
        (.ok { status := 400, body := .text "参数错误或名称包含非字母字符".toList }, env)

def handleApiJson (request : Request) (env : Env) : Result :=
  match env.ICON_KV with
  | none => .error .typeError
  | some kv =>
    let list := kv.list
    let origin := request.url.origin
    let iconsArray : List IconEntry := list.map fun key =>
      { name := key, url := origin ++ "/file/".toList ++ templateNull (kv.get key) }
    let finalJson : Manifest :=
      { name := "Asonlino icon".toList, description := "By Asonlino".toList,
        icons := iconsArray }
    .ok { headers := Headers.ofInit
            [("Content-Type".toList, "application/json;charset=UTF-8".toList),
             ("Access-Control-Allow-Origin".toList, "*".toList)],
          body := .json finalJson }

def handleServeImage (path : JsString) (env : Env) : Result :=
  let filename := replace path "/file/".toList []
  match env.ICON_BUCKET with
  | none =>
    .ok { status := 500, body := .text "Server Configuration Error: R2 Not Bound".toList }
  | some bucket =>
    match bucket.get filename with
    | none => .ok { status := 404, body := .text "Image not found".toList }
    | some object =>
      let headers : Headers := object.writeHttpMetadata []
      let headers := headers.set "etag".toList object.httpEtag
      let headers := headers.set "Cache-Control".toList "public, max-age=31536000".toList
      .ok { headers := headers, body := .bytes object.body }

/-! ## Router -/

/-- The five handlers. -/
inductive Handler where
  | serveImage
  | adminPage
  | apiJson
  | loginAction
  | uploadAction
  deriving DecidableEq

/-- The handler `fetch` selects for a path: the `startsWith` test first, then
the `switch`; `none` is the `default` case. -/
def route (path : JsString) : Option Handler :=
  if startsWith path "/file/".toList then some .serveImage
  else if path = "/".toList then some .adminPage
  else if path = "/api/icon".toList then some .apiJson
  else if path = "/auth/login".toList then some .loginAction
  else if path = "/api/upload".toList then some .uploadAction
  else none

/-- The entry point: the response (or rejection) and the environment after
the request. -/
def fetch (request : Request) (env : Env) : Result × Env :=
  let path := request.url.pathname
  match route path with
  | some .serveImage => (handleServeImage path env, env)
  | some .adminPage => (handleAdminPage request env, env)
  | some .apiJson => (handleApiJson request env, env)
  | some .loginAction => (handleLoginAction request env, env)
  | some .uploadAction => handleUploadAction request env
  | none => (.ok { status := 404, body := .text "404 Not Found".toList }, env)

/-- The environment after a sequence of requests handled one at a time. -/
def run (env : Env) : List Request → Env
  | [] => env
  | request :: rest => run (fetch request env).2 rest

/-! ## The cookie field reading of the credential check

The specification describes the credential check in terms of cookie fields.
The definitions below follow that description, not the source: they are the
other side of the comparison with `isAuthorized`. -/

/-- Removal of the blanks around a cookie field. -/
def trimBlanks (s : JsString) : JsString :=
  ((s.dropWhile (· == ' ')).reverse.dropWhile (· == ' ')).reverse

/-- The fields of a cookie header: the header is cut at every `;`, and each
piece, blanks removed, is cut at its first `=` into a name and a value. -/
def cookieFields (header : JsString) : List (JsString × JsString) :=
  (header.splitOn ';').map fun field =>
    let field := trimBlanks field
    (field.takeWhile (· != '='), (field.dropWhile (· != '=')).drop 1)

/-- The header has a field named exactly `name` whose value is exactly
`value`. -/
def hasCookieField (header : Option JsString) (name value : JsString) : Bool :=
  match header with
  | none => false
  | some h => decide ((name, value) ∈ cookieFields h)

/-! ## Authorised, valid uploads

The specification speaks of an authorised, valid upload of a file under a
name.  `uploadOf` follows that description: it names the upload a request
carries, if any. -/

/-- The name and the file of the request when it is an authorised, valid
upload: its path is `/api/upload`, the credential check holds, its body is a
form with a truthy `file` entry and a string `name` entry matching
`^[a-zA-Z]+$`. -/
def uploadOf (request : Request) (env : Env) : Option (JsString × FormValue) :=
  if request.url.pathname = "/api/upload".toList ∧ isAuthorized request env = true then
    match request.formData with
    | none => none
    | some fd =>
      match fd.get "file".toList, fd.get "name".toList with
      | some file, some (.str n) =>
        if file.truthy = true ∧ testLetters n = true then some (n, file) else none
      | _, _ => none
  else none

/-- The layout of the persisted state: every key `k` of the directory store is
a non-empty string of ASCII letters mapped to `k + ".png"`, the object store
has an object under `k + ".png"` for each of them, and every key of the object
store is `k + ".png"` for some key `k` of the directory store. -/
def StoresConsistent (bucket : R2Bucket) (kv : KVNamespace) : Prop :=
  (∀ k v, kv.get k = some v →
    (k ≠ [] ∧ ∀ c ∈ k, isLetter c = true) ∧ v = k ++ ".png".toList ∧
      (bucket.get (k ++ ".png".toList)).isSome = true) ∧
  (∀ f, (bucket.get f).isSome = true →
    ∃ k, (kv.get k).isSome = true ∧ f = k ++ ".png".toList)

/-! ## Sample data

Concrete environments and requests, used to instantiate the theorems. -/

/-- An object store without objects, with constant etag and no metadata. -/
def sampleBucket : R2Bucket := ⟨∅, fun _ => "e0".toList, fun _ => []⟩

/-- The secret `s` and both stores bound and empty. -/
def sampleEnv : Env := ⟨some "s".toList, some sampleBucket, some ∅⟩

/-- A request with the given method, path, cookie header and form. -/
def sampleRequest (method path : String) (cookie : Option String)
    (form : Option FormData) : Request :=
  ⟨method.toList, ⟨"https://h".toList, path.toList⟩, cookie.map String.toList, form⟩

/-- An upload form with a `File` of the given bytes and the given name. -/
def sampleForm (name : String) (bytes : Bytes) : FormData :=
  [("file".toList, .file ⟨"blob".toList, "image/png".toList, bytes⟩),
   ("name".toList, .str name.toList)]

/-! ## Lemmas on strings and headers -/

theorem includes_iff (s t : JsString) : includes s t = true ↔ t <:+: s := by
  induction s with
  | nil => cases t <;> simp [includes]
  | cons c s ih =>
    rw [includes, Bool.or_eq_true, ih, List.infix_cons_iff, List.isPrefixOf_iff_prefix]

theorem replace_leading (pat f : JsString) : replace (pat ++ f) pat [] = f := by
  cases h : pat ++ f with
  | nil =>
    obtain ⟨h1, h2⟩ := List.append_eq_nil.mp h
    subst h1 h2
    simp [replace]
  | cons c r =>
    have hp : pat.isPrefixOf (c :: r) = true := by
      rw [← h, List.isPrefixOf_iff_prefix]; exact List.prefix_append _ _
    rw [replace, if_pos hp, ← h]
    simp

theorem lookup_cons_eq (k : JsString) (v : JsString) (l : List (JsString × JsString)) :
    List.lookup k ((k, v) :: l) = some v := by
  simp [List.lookup]

theorem lookup_cons_ne (k a : JsString) (v : JsString) (l : List (JsString × JsString))
    (h : k ≠ a) : List.lookup k ((a, v) :: l) = List.lookup k l := by
  have : (k == a) = false := by simpa using h
  simp [List.lookup, this]

theorem Headers.get_after_set (hs : Headers) (n v : JsString) :
    (hs.set n v).get n = some v := by
  unfold Headers.get Headers.set
  induction hs with
  | nil => exact lookup_cons_eq _ _ _
  | cons h hs ih =>
    obtain ⟨a, b⟩ := h
    by_cases hk : a = lower n
    · rw [List.filter_cons_of_neg (by simpa using hk)]; exact ih
    · rw [List.filter_cons_of_pos (by simpa using hk), List.cons_append,
        lookup_cons_ne _ _ _ _ (fun e => hk e.symm)]
      exact ih

theorem Headers.get_after_set_other (hs : Headers) (n v m : JsString) (hne : lower m ≠ lower n) :
    (hs.set n v).get m = hs.get m := by
  unfold Headers.get Headers.set
  induction hs with
  | nil => rw [List.filter_nil, List.nil_append, lookup_cons_ne _ _ _ _ hne]
  | cons h hs ih =>
    obtain ⟨a, b⟩ := h
    by_cases hk : a = lower n
    · rw [List.filter_cons_of_neg (by simpa using hk), ih,
        lookup_cons_ne _ _ _ _ (by rw [hk]; exact hne)]
    · rw [List.filter_cons_of_pos (by simpa using hk), List.cons_append]
      by_cases hm : lower m = a
      · subst hm; rw [lookup_cons_eq, lookup_cons_eq]
      · rw [lookup_cons_ne _ _ _ _ hm, lookup_cons_ne _ _ _ _ hm, ih]

/-! ## Credential check -/

/-- C1, as stated, fails: with the secret `s`, the headers `xauth_token=s` and
`auth_token=sextra` are both authorised, although neither has a field named
exactly `auth_token` whose value is exactly `s`. -/
theorem isAuthorized_not_cookie_field :
    (isAuthorized (sampleRequest "GET" "/" (some "xauth_token=s") none) sampleEnv = true ∧
      hasCookieField (some "xauth_token=s".toList) "auth_token".toList "s".toList = false) ∧
    (isAuthorized (sampleRequest "GET" "/" (some "auth_token=sextra") none) sampleEnv = true ∧
      hasCookieField (some "auth_token=sextra".toList) "auth_token".toList "s".toList
        = false) := by
  decide

/-- C1, amended: for every cookie header (possibly absent) and every configured
secret `s`, `isAuthorized` returns a truthy value if and only if the header is
present and contains the text `auth_token=` followed by `s` as a substring,
anywhere in the header. -/
theorem isAuthorized_iff_substring (request : Request) (env : Env) (s : JsString)
    (hs : env.ADMIN_PASSWORD = some s) :
    isAuthorized request env = true ↔
      ∃ cookie, request.cookie = some cookie ∧ ("auth_token=".toList ++ s) <:+: cookie := by
  unfold isAuthorized
  rw [hs]
  cases hc : request.cookie with
  | none => simp
  | some cookie =>
    simp only [templateUndefined, Bool.and_eq_true, includes_iff, Option.some.injEq,
      exists_eq_left']
    constructor
    · exact fun h => h.2
    · intro h
      refine ⟨?_, h⟩
      cases cookie with
      | nil => simp at h
      | cons c cs => rfl

theorem isAuthorized_iff_substring_witness :
    sampleEnv.ADMIN_PASSWORD = some "s".toList ∧
    (isAuthorized (sampleRequest "GET" "/" (some "a=b; auth_token=s") none) sampleEnv = true ↔
      ∃ cookie, (sampleRequest "GET" "/" (some "a=b; auth_token=s") none).cookie = some cookie ∧
        ("auth_token=".toList ++ "s".toList) <:+: cookie) :=
  ⟨rfl, isAuthorized_iff_substring _ sampleEnv "s".toList rfl⟩

/-! ## Upload: refusals -/

/-- C2: when `isAuthorized` is false, `handleUploadAction` answers 401
`Unauthorized` whatever the body is (the form is not even read), and returns
the environment it was given: neither store is written.  The same holds for
the request seen through `fetch` on the path `/api/upload`. -/
theorem upload_unauthorized (request : Request) (env : Env)
    (h : isAuthorized request env = false) :
    handleUploadAction request env =
        (.ok { status := 401, body := .text "Unauthorized".toList }, env) ∧
      (request.url.pathname = "/api/upload".toList →
        fetch request env =
          (.ok { status := 401, body := .text "Unauthorized".toList }, env)) := by
  have h1 : handleUploadAction request env =
      (.ok { status := 401, body := .text "Unauthorized".toList }, env) := by
    simp [handleUploadAction, h]
  refine ⟨h1, fun hp => ?_⟩
  have hr : route request.url.pathname = some .uploadAction := by rw [hp]; decide
  simp only [fetch, hr, h1]

theorem upload_unauthorized_witness :
    isAuthorized (sampleRequest "POST" "/api/upload" none (some (sampleForm "abc" [1, 2])))
        sampleEnv = false ∧
    handleUploadAction (sampleRequest "POST" "/api/upload" none (some (sampleForm "abc" [1, 2])))
        sampleEnv =
      (.ok { status := 401, body := .text "Unauthorized".toList }, sampleEnv) :=
  ⟨rfl, (upload_unauthorized
    (sampleRequest "POST" "/api/upload" none (some (sampleForm "abc" [1, 2]))) sampleEnv rfl).1⟩

theorem testLetters_eq_false_of_mem (s : JsString) (c : Char) (hc : c ∈ s)
    (hl : isLetter c = false) : testLetters s = false := by
  unfold testLetters
  have : s.all isLetter = false := by
    rw [List.all_eq_false]
    exact ⟨c, hc, by simp [hl]⟩
  simp [this]

/-- C3: an authorised upload whose form has no `file`, or no `name`, or a
`name` that is the empty string or contains a character outside `a-z`/`A-Z`,
is answered 400 and returns the environment it was given: neither store is
written. -/
theorem upload_bad_request (request : Request) (env : Env) (fd : FormData)
    (hauth : isAuthorized request env = true) (hfd : request.formData = some fd)
    (hbad : fd.get "file".toList = none ∨ fd.get "name".toList = none ∨
      ∃ s, fd.get "name".toList = some (.str s) ∧ (s = [] ∨ ∃ c ∈ s, isLetter c = false)) :
    handleUploadAction request env =
      (.ok { status := 400, body := .text "参数错误或名称包含非字母字符".toList }, env) := by
  unfold handleUploadAction
  simp only [hauth, hfd]
  rcases hbad with h | h | ⟨s, h, hs⟩
  · rw [h]; rfl
  · rw [h]
    cases fd.get "file".toList <;> rfl
  · rw [h]
    cases fd.get "file".toList with
    | none => rfl
    | some file =>
      have ht : (!FormValue.truthy (.str s) || !testLetters (FormValue.toJsString (.str s)))
          = true := by
        rcases hs with rfl | ⟨c, hc, hl⟩
        · rfl
        · simp [FormValue.toJsString, testLetters_eq_false_of_mem s c hc hl]
      simp only [Bool.not_true, Bool.false_eq_true, ↓reduceIte]
      rw [Bool.or_assoc, ht, Bool.or_true]
      simp

theorem upload_bad_request_witness :
    isAuthorized (sampleRequest "POST" "/api/upload" (some "auth_token=s")
      (some (sampleForm "ab1" [1, 2]))) sampleEnv = true ∧
    handleUploadAction (sampleRequest "POST" "/api/upload" (some "auth_token=s")
      (some (sampleForm "ab1" [1, 2]))) sampleEnv =
      (.ok { status := 400, body := .text "参数错误或名称包含非字母字符".toList }, sampleEnv) :=
  ⟨by decide, upload_bad_request
    (sampleRequest "POST" "/api/upload" (some "auth_token=s") (some (sampleForm "ab1" [1, 2])))
    sampleEnv (sampleForm "ab1" [1, 2]) (by decide) rfl
    (Or.inr (Or.inr ⟨"ab1".toList, rfl, Or.inr ⟨'1', by decide, by decide⟩⟩))⟩

/-! ## Lemmas on the handlers -/

theorem testLetters_ne_nil (n : JsString) (hn : testLetters n = true) : n ≠ [] := by
  rintro rfl
  simp [testLetters] at hn

/-- The environment after a successful upload of `file` under `name`. -/
theorem handleUploadAction_ok (request : Request) (env : Env) (fd : FormData)
    (file : FormValue) (n : JsString) (bucket : R2Bucket) (kv : KVNamespace)
    (hauth : isAuthorized request env = true) (hfd : request.formData = some fd)
    (hfile : fd.get "file".toList = some file) (htruthy : file.truthy = true)
    (hname : fd.get "name".toList = some (.str n)) (hn : testLetters n = true)
    (hb : env.ICON_BUCKET = some bucket) (hkv : env.ICON_KV = some kv) :
    handleUploadAction request env =
      (.ok { body := .text "OK".toList },
        ⟨env.ADMIN_PASSWORD, some (bucket.put (n ++ ".png".toList) file),
          some (kv.put n (n ++ ".png".toList))⟩) := by
  have hne : n ≠ [] := testLetters_ne_nil n hn
  have htn : FormValue.truthy (.str n) = true := by
    cases n with
    | nil => exact absurd rfl hne
    | cons c cs => rfl
  unfold handleUploadAction
  simp only [hauth, hfd, Bool.not_true, Bool.false_eq_true, ↓reduceIte]
  rw [hfile, hname]
  simp only [htruthy, htn, FormValue.toJsString, hn, Bool.not_true, Bool.or_self,
    Bool.false_eq_true, ↓reduceIte, hb, hkv]

theorem handleApiJson_ok (request : Request) (env : Env) (kv : KVNamespace)
    (hkv : env.ICON_KV = some kv) :
    handleApiJson request env =
      .ok { headers := Headers.ofInit
              [("Content-Type".toList, "application/json;charset=UTF-8".toList),
               ("Access-Control-Allow-Origin".toList, "*".toList)],
            body := .json
              { name := "Asonlino icon".toList, description := "By Asonlino".toList,
                icons := kv.keys.map fun key =>
                  { name := key,
                    url := request.url.origin ++ "/file/".toList ++
                      templateNull (kv.lookup key) } } } := by
  unfold handleApiJson
  rw [hkv]
  rfl

theorem handleServeImage_found (f : JsString) (env : Env) (bucket : R2Bucket)
    (object : R2Object) (hb : env.ICON_BUCKET = some bucket)
    (hget : bucket.get f = some object) :
    handleServeImage ("/file/".toList ++ f) env =
      .ok { headers := ((object.writeHttpMetadata []).set "etag".toList object.httpEtag).set
              "Cache-Control".toList "public, max-age=31536000".toList,
            body := .bytes object.body } := by
  unfold handleServeImage
  simp only [replace_leading, hb, hget]

theorem handleServeImage_missing (f : JsString) (env : Env) (bucket : R2Bucket)
    (hb : env.ICON_BUCKET = some bucket) (hget : bucket.get f = none) :
    handleServeImage ("/file/".toList ++ f) env =
      .ok { status := 404, body := .text "Image not found".toList } := by
  unfold handleServeImage
  simp only [replace_leading, hb, hget]

theorem handleServeImage_unbound (path : JsString) (env : Env)
    (hb : env.ICON_BUCKET = none) :
    handleServeImage path env =
      .ok { status := 500, body := .text "Server Configuration Error: R2 Not Bound".toList } := by
  unfold handleServeImage
  simp only [hb]

theorem R2Bucket.get_after_put (b : R2Bucket) (key : JsString) (value : FormValue) :
    (b.put key value).get key =
      some ⟨value.toBytes, b.etagOf value.toBytes, b.metadataOf value⟩ := by
  simp [R2Bucket.get, R2Bucket.put]

theorem R2Bucket.get_after_put_other (b : R2Bucket) (key k : JsString) (value : FormValue)
    (h : k ≠ key) : (b.put key value).get k = b.get k := by
  simp [R2Bucket.get, R2Bucket.put, AList.lookup_insert_ne h]

theorem KVNamespace.lookup_after_put (kv : KVNamespace) (key value : JsString) :
    (kv.put key value).get key = some value := by
  simp [KVNamespace.get, KVNamespace.put]

theorem KVNamespace.lookup_after_put_other (kv : KVNamespace) (key k value : JsString)
    (h : k ≠ key) : (kv.put key value).get k = kv.get k := by
  simp [KVNamespace.get, KVNamespace.put, AList.lookup_insert_ne h]

/-! ## Upload, manifest and file serving -/

/-- C4: for every state of the two stores, an authorised upload of a file
`file` under a name `n` matching `^[a-zA-Z]+$` is answered 200 `OK`;
afterwards (1) the manifest returned by `handleApiJson` for a request of
origin `o` has an entry named `n` with url `o + "/file/" + n + ".png"`, and
(2) `handleServeImage` on the path `"/file/" + n + ".png"` answers 200 with
exactly the content `content` of `file` as body: the bytes of the `File`, or
the UTF-8 encoding of the text when the `file` entry is a string. -/
theorem upload_round_trip (request : Request) (env : Env) (fd : FormData)
    (file : FormValue) (content : Bytes) (n : JsString) (bucket : R2Bucket)
    (kv : KVNamespace) (later : Request)
    (hauth : isAuthorized request env = true) (hfd : request.formData = some fd)
    (hfile : fd.get "file".toList = some file) (htruthy : file.truthy = true)
    (hcontent : (∃ f : JsFile, file = .file f ∧ content = f.bytes) ∨
      (∃ s : JsString, file = .str s ∧ content = s.flatMap String.utf8EncodeChar))
    (hname : fd.get "name".toList = some (.str n)) (hn : testLetters n = true)
    (hb : env.ICON_BUCKET = some bucket) (hkv : env.ICON_KV = some kv) :
    (handleUploadAction request env).1 = .ok { status := 200, body := .text "OK".toList } ∧
    (∃ hs icons,
      handleApiJson later (handleUploadAction request env).2 =
        .ok { status := 200, headers := hs,
              body := .json ⟨"Asonlino icon".toList, "By Asonlino".toList, icons⟩ } ∧
      (⟨n, later.url.origin ++ "/file/".toList ++ n ++ ".png".toList⟩ : IconEntry) ∈ icons) ∧
    ∃ r, handleServeImage ("/file/".toList ++ n ++ ".png".toList)
          (handleUploadAction request env).2 = .ok r ∧
      r.status = 200 ∧ r.body = .bytes content := by
  have hbytes : file.toBytes = content := by
    rcases hcontent with ⟨f, rfl, rfl⟩ | ⟨s, rfl, rfl⟩ <;> rfl
  rw [handleUploadAction_ok request env fd file n bucket kv hauth hfd hfile htruthy hname hn
    hb hkv]
  refine ⟨rfl, ⟨_, _, handleApiJson_ok later _ _ rfl, ?_⟩, ?_⟩
  · rw [List.mem_map]
    refine ⟨n, ?_, ?_⟩
    · exact AList.mem_keys.mp ((AList.mem_insert kv).mpr (Or.inl rfl))
    · have : AList.lookup n (kv.put n (n ++ ".png".toList)) = some (n ++ ".png".toList) :=
        KVNamespace.lookup_after_put kv n _
      rw [this]
      simp [templateNull, List.append_assoc]
  · rw [List.append_assoc]
    exact ⟨_, handleServeImage_found _ _ _ _ rfl (R2Bucket.get_after_put bucket _ file),
      rfl, congrArg Body.bytes hbytes⟩

theorem upload_round_trip_witness :
    (handleUploadAction (sampleRequest "POST" "/api/upload" (some "auth_token=s")
        (some (sampleForm "abc" [1, 2]))) sampleEnv).1
      = .ok { status := 200, body := .text "OK".toList } ∧
    (∃ hs icons,
      handleApiJson (sampleRequest "GET" "/api/icon" none none)
          (handleUploadAction (sampleRequest "POST" "/api/upload" (some "auth_token=s")
            (some (sampleForm "abc" [1, 2]))) sampleEnv).2 =
        .ok { status := 200, headers := hs,
              body := .json ⟨"Asonlino icon".toList, "By Asonlino".toList, icons⟩ } ∧
      (⟨"abc".toList, (sampleRequest "GET" "/api/icon" none none).url.origin ++
          "/file/".toList ++ "abc".toList ++ ".png".toList⟩ : IconEntry) ∈ icons) ∧
    ∃ r, handleServeImage ("/file/".toList ++ "abc".toList ++ ".png".toList)
          (handleUploadAction (sampleRequest "POST" "/api/upload" (some "auth_token=s")
            (some (sampleForm "abc" [1, 2]))) sampleEnv).2 = .ok r ∧
      r.status = 200 ∧ r.body = .bytes [1, 2] :=
  upload_round_trip
    (sampleRequest "POST" "/api/upload" (some "auth_token=s") (some (sampleForm "abc" [1, 2])))
    sampleEnv (sampleForm "abc" [1, 2]) (.file ⟨"blob".toList, "image/png".toList, [1, 2]⟩)
    [1, 2] "abc".toList sampleBucket ∅ (sampleRequest "GET" "/api/icon" none none)
    (by decide) rfl rfl rfl (Or.inl ⟨_, rfl, rfl⟩) rfl (by decide) rfl rfl

/-- C5: after two successive authorised uploads of `file1` and then `file2`
under the same valid name `n`, with contents `content1` and `content2` (the
bytes of a `File`, the UTF-8 encoding of a string entry): the object store,
which held `content1` under `n + ".png"` after the first upload, holds
`content2` there after the second; the directory store maps `n` to
`n + ".png"`; serving `/file/<n>.png` answers 200 with `content2`; the
manifest has exactly one entry named `n`; and every other key of either store
holds what it held before the second upload. -/
theorem upload_last_write_wins (req1 req2 : Request) (env : Env) (fd1 fd2 : FormData)
    (file1 file2 : FormValue) (content1 content2 : Bytes) (n : JsString)
    (bucket : R2Bucket) (kv : KVNamespace) (later : Request)
    (hauth1 : isAuthorized req1 env = true) (hfd1 : req1.formData = some fd1)
    (hfile1 : fd1.get "file".toList = some file1) (htruthy1 : file1.truthy = true)
    (hcontent1 : (∃ f : JsFile, file1 = .file f ∧ content1 = f.bytes) ∨
      (∃ s : JsString, file1 = .str s ∧ content1 = s.flatMap String.utf8EncodeChar))
    (hcontent2 : (∃ f : JsFile, file2 = .file f ∧ content2 = f.bytes) ∨
      (∃ s : JsString, file2 = .str s ∧ content2 = s.flatMap String.utf8EncodeChar))
    (hname1 : fd1.get "name".toList = some (.str n))
    (hauth2 : isAuthorized req2 (handleUploadAction req1 env).2 = true)
    (hfd2 : req2.formData = some fd2)
    (hfile2 : fd2.get "file".toList = some file2) (htruthy2 : file2.truthy = true)
    (hname2 : fd2.get "name".toList = some (.str n))
    (hn : testLetters n = true)
    (hb : env.ICON_BUCKET = some bucket) (hkv : env.ICON_KV = some kv) :
    ∃ b1 kv1 b2 kv2,
      (handleUploadAction req1 env).2.ICON_BUCKET = some b1 ∧
      (handleUploadAction req1 env).2.ICON_KV = some kv1 ∧
      (handleUploadAction req2 (handleUploadAction req1 env).2).2.ICON_BUCKET = some b2 ∧
      (handleUploadAction req2 (handleUploadAction req1 env).2).2.ICON_KV = some kv2 ∧
      (b1.get (n ++ ".png".toList)).map (·.body) = some content1 ∧
      (b2.get (n ++ ".png".toList)).map (·.body) = some content2 ∧
      kv2.get n = some (n ++ ".png".toList) ∧
      (∃ r, handleServeImage ("/file/".toList ++ n ++ ".png".toList)
            (handleUploadAction req2 (handleUploadAction req1 env).2).2 = .ok r ∧
        r.status = 200 ∧ r.body = .bytes content2) ∧
      (∃ hs icons,
        handleApiJson later (handleUploadAction req2 (handleUploadAction req1 env).2).2 =
          .ok { status := 200, headers := hs,
                body := .json ⟨"Asonlino icon".toList, "By Asonlino".toList, icons⟩ } ∧
        (icons.map (·.name)).count n = 1) ∧
      (∀ k, k ≠ n ++ ".png".toList → b2.get k = b1.get k) ∧
      (∀ k, k ≠ n → kv2.get k = kv1.get k) := by
  have hbytes1 : file1.toBytes = content1 := by
    rcases hcontent1 with ⟨f, rfl, rfl⟩ | ⟨s, rfl, rfl⟩ <;> rfl
  have hbytes2 : file2.toBytes = content2 := by
    rcases hcontent2 with ⟨f, rfl, rfl⟩ | ⟨s, rfl, rfl⟩ <;> rfl
  have e1 := handleUploadAction_ok req1 env fd1 file1 n bucket kv hauth1 hfd1 hfile1 htruthy1
    hname1 hn hb hkv
  rw [e1] at hauth2 ⊢
  have e2 := handleUploadAction_ok req2 _ fd2 file2 n _ _ hauth2 hfd2 hfile2 htruthy2
    hname2 hn rfl rfl
  rw [e2]
  refine ⟨_, _, _, _, rfl, rfl, rfl, rfl, ?_, ?_, KVNamespace.lookup_after_put _ _ _, ?_, ?_,
    ?_, ?_⟩
  · rw [R2Bucket.get_after_put]; exact congrArg some hbytes1
  · rw [R2Bucket.get_after_put]; exact congrArg some hbytes2
  · rw [List.append_assoc]
    exact ⟨_, handleServeImage_found _ _ _ _ rfl (R2Bucket.get_after_put _ _ file2), rfl,
      congrArg Body.bytes hbytes2⟩
  · refine ⟨_, _, handleApiJson_ok later _ _ rfl, ?_⟩
    rw [List.map_map]
    have hmap : ((fun e : IconEntry => e.name) ∘ fun key : JsString =>
        ({ name := key, url := later.url.origin ++ "/file/".toList ++
            templateNull (AList.lookup key
              ((kv.put n (n ++ ".png".toList)).put n (n ++ ".png".toList))) } : IconEntry))
        = id := rfl
    rw [hmap, List.map_id]
    have hcount := List.count_eq_one_of_mem
      (AList.keys_nodup ((kv.put n (n ++ ".png".toList)).put n (n ++ ".png".toList)))
      (AList.mem_keys.mp ((AList.mem_insert (kv.put n (n ++ ".png".toList))).mpr (Or.inl rfl)))
    convert hcount
  · intro k hk; exact R2Bucket.get_after_put_other _ _ _ _ hk
  · intro k hk; exact KVNamespace.lookup_after_put_other _ _ _ _ hk

theorem upload_last_write_wins_witness :
    ∃ b1 kv1 b2 kv2,
      (handleUploadAction (sampleRequest "POST" "/api/upload" (some "auth_token=s")
        (some (sampleForm "abc" [1, 2]))) sampleEnv).2.ICON_BUCKET = some b1 ∧
      (handleUploadAction (sampleRequest "POST" "/api/upload" (some "auth_token=s")
        (some (sampleForm "abc" [1, 2]))) sampleEnv).2.ICON_KV = some kv1 ∧
      (handleUploadAction (sampleRequest "POST" "/api/upload" (some "auth_token=s")
          (some (sampleForm "abc" [3])))
        (handleUploadAction (sampleRequest "POST" "/api/upload" (some "auth_token=s")
          (some (sampleForm "abc" [1, 2]))) sampleEnv).2).2.ICON_BUCKET = some b2 ∧
      (handleUploadAction (sampleRequest "POST" "/api/upload" (some "auth_token=s")
          (some (sampleForm "abc" [3])))
        (handleUploadAction (sampleRequest "POST" "/api/upload" (some "auth_token=s")
          (some (sampleForm "abc" [1, 2]))) sampleEnv).2).2.ICON_KV = some kv2 ∧
      (b1.get ("abc".toList ++ ".png".toList)).map (·.body) = some [1, 2] ∧
      (b2.get ("abc".toList ++ ".png".toList)).map (·.body) = some [3] ∧
      kv2.get "abc".toList = some ("abc".toList ++ ".png".toList) ∧
      (∃ r, handleServeImage ("/file/".toList ++ "abc".toList ++ ".png".toList)
            (handleUploadAction (sampleRequest "POST" "/api/upload" (some "auth_token=s")
                (some (sampleForm "abc" [3])))
              (handleUploadAction (sampleRequest "POST" "/api/upload" (some "auth_token=s")
                (some (sampleForm "abc" [1, 2]))) sampleEnv).2).2 = .ok r ∧
        r.status = 200 ∧ r.body = .bytes [3]) ∧
      (∃ hs icons,
        handleApiJson (sampleRequest "GET" "/api/icon" none none)
            (handleUploadAction (sampleRequest "POST" "/api/upload" (some "auth_token=s")
                (some (sampleForm "abc" [3])))
              (handleUploadAction (sampleRequest "POST" "/api/upload" (some "auth_token=s")
                (some (sampleForm "abc" [1, 2]))) sampleEnv).2).2 =
          .ok { status := 200, headers := hs,
                body := .json ⟨"Asonlino icon".toList, "By Asonlino".toList, icons⟩ } ∧
        (icons.map (·.name)).count "abc".toList = 1) ∧
      (∀ k, k ≠ "abc".toList ++ ".png".toList → b2.get k = b1.get k) ∧
      (∀ k, k ≠ "abc".toList → kv2.get k = kv1.get k) :=
  upload_last_write_wins
    (sampleRequest "POST" "/api/upload" (some "auth_token=s") (some (sampleForm "abc" [1, 2])))
    (sampleRequest "POST" "/api/upload" (some "auth_token=s") (some (sampleForm "abc" [3])))
    sampleEnv (sampleForm "abc" [1, 2]) (sampleForm "abc" [3])
    (.file ⟨"blob".toList, "image/png".toList, [1, 2]⟩)
    (.file ⟨"blob".toList, "image/png".toList, [3]⟩)
    [1, 2] [3] "abc".toList sampleBucket ∅ (sampleRequest "GET" "/api/icon" none none)
    (by decide) rfl rfl rfl (Or.inl ⟨_, rfl, rfl⟩) (Or.inl ⟨_, rfl, rfl⟩) rfl
    (by decide) rfl rfl rfl rfl (by decide) rfl rfl

/-- C6: for every state `kv` of the directory store and every request origin
`o`, `handleApiJson` answers 200 with `Access-Control-Allow-Origin: *` and
the object `name: "Asonlino icon", description: "By Asonlino", icons: L`,
where the names of `L` are the keys yielded by `list()`, in that order and
without repetition (so `L` has one entry per key and as many entries as keys),
and the entry of a key `k` mapped to `v` is `name: k, url: o + "/file/" + v`. -/
theorem manifest_one_entry_per_key (request : Request) (env : Env) (kv : KVNamespace)
    (hkv : env.ICON_KV = some kv) :
    ∃ hs L,
      handleApiJson request env =
        .ok { status := 200, headers := hs,
              body := .json ⟨"Asonlino icon".toList, "By Asonlino".toList, L⟩ } ∧
      hs.get "Access-Control-Allow-Origin".toList = some "*".toList ∧
      L.map (·.name) = kv.list ∧ kv.list.Nodup ∧ L.length = kv.list.length ∧
      (∀ k, k ∈ kv.list ↔ ∃ v, kv.get k = some v) ∧
      (∀ k v, kv.get k = some v →
        (⟨k, request.url.origin ++ "/file/".toList ++ v⟩ : IconEntry) ∈ L) ∧
      (∀ e ∈ L, ∃ v, kv.get e.name = some v ∧
        e.url = request.url.origin ++ "/file/".toList ++ v) := by
  refine ⟨_, _, handleApiJson_ok request env kv hkv, by decide, ?_, AList.keys_nodup kv,
    by simp [KVNamespace.list], ?_, ?_, ?_⟩
  · rw [List.map_map]
    exact List.map_id _
  · intro k
    rw [KVNamespace.list, ← AList.mem_keys, ← AList.lookup_isSome, Option.isSome_iff_exists]
    rfl
  · intro k v hv
    rw [List.mem_map]
    refine ⟨k, ?_, ?_⟩
    · rw [← AList.mem_keys, ← AList.lookup_isSome]
      exact Option.isSome_iff_exists.mpr ⟨v, hv⟩
    · have : AList.lookup k kv = some v := hv
      rw [this]; rfl
  · intro e he
    obtain ⟨k, hk, rfl⟩ := List.mem_map.mp he
    obtain ⟨v, hv⟩ := Option.isSome_iff_exists.mp
      (AList.lookup_isSome.mpr (AList.mem_keys.mpr hk))
    exact ⟨v, hv, by simp only [hv, templateNull]⟩

theorem manifest_one_entry_per_key_witness :
    ∃ hs L,
      handleApiJson (sampleRequest "GET" "/api/icon" none none)
          ⟨none, none, some (AList.insert "b".toList "b.png".toList
            (AList.insert "a".toList "a.png".toList ∅))⟩ =
        .ok { status := 200, headers := hs,
              body := .json ⟨"Asonlino icon".toList, "By Asonlino".toList, L⟩ } ∧
      hs.get "Access-Control-Allow-Origin".toList = some "*".toList ∧
      L.map (·.name) = KVNamespace.list (AList.insert "b".toList "b.png".toList
            (AList.insert "a".toList "a.png".toList ∅)) ∧
      L.length = 2 := by
  obtain ⟨hs, L, h1, h2, h3, _, h5, _⟩ := manifest_one_entry_per_key
    (sampleRequest "GET" "/api/icon" none none)
    ⟨none, none, some (AList.insert "b".toList "b.png".toList
      (AList.insert "a".toList "a.png".toList ∅))⟩ _ rfl
  exact ⟨hs, L, h1, h2, h3, h5.trans (by decide)⟩

/-! ## Login and the gated page -/

theorem loginRedirect_headers (p : JsString) :
    (loginRedirect p).status = 302 ∧
    (loginRedirect p).headers.get "Location".toList = some "/".toList ∧
    (loginRedirect p).headers.get "Set-Cookie".toList =
      some ("auth_token=".toList ++ p ++
        "; Path=/; HttpOnly; Max-Age=86400; SameSite=Lax".toList) := by
  refine ⟨rfl, ?_, ?_⟩
  · exact Headers.get_after_set _ _ _
  · show Headers.get (Headers.set (Headers.set [] _ _) _ _) _ = _
    rw [Headers.get_after_set_other _ _ _ _ (by decide)]
    exact Headers.get_after_set _ _ _

theorem isAuthorized_replay (request : Request) (env : Env) (s : JsString)
    (hs : env.ADMIN_PASSWORD = some s)
    (hc : request.cookie = some ("auth_token=".toList ++ s)) :
    isAuthorized request env = true := by
  unfold isAuthorized
  rw [hc, hs]
  simp only [templateUndefined, Bool.and_eq_true, includes_iff]
  exact ⟨rfl, List.infix_refl _⟩

theorem isAuthorized_without_cookie (request : Request) (env : Env) (s : JsString)
    (hs : env.ADMIN_PASSWORD = some s)
    (hc : ∀ cookie, request.cookie = some cookie →
      ¬ ("auth_token=".toList ++ s) <:+: cookie) :
    isAuthorized request env = false := by
  unfold isAuthorized
  cases hcookie : request.cookie with
  | none => rfl
  | some cookie =>
    have hinc : includes cookie ("auth_token=".toList ++ s) = false :=
      Bool.eq_false_iff.mpr (fun h => hc cookie hcookie ((includes_iff _ _).mp h))
    simp only [hs, templateUndefined, hinc, Bool.and_false]

/-- C8: with the configured secret `s`, a request to `/auth/login` that is not
a POST gets 405; a POST whose `password` field is `s` gets 302 with `Location:
/` and `Set-Cookie: auth_token=<s>; Path=/; HttpOnly; Max-Age=86400;
SameSite=Lax`, and a later request to `/` with the cookie header
`auth_token=<s>` is answered with the upload page; a POST whose `password`
field is anything else, or missing, gets 403 without `Set-Cookie`; and a
request to `/` without the cookie (no cookie header, or one that does not
contain `auth_token=<s>`) is answered with the login page. -/
theorem login_flow (request : Request) (env : Env) (s : JsString)
    (hs : env.ADMIN_PASSWORD = some s)
    (hpath : request.url.pathname = "/auth/login".toList) :
    (request.method ≠ "POST".toList →
      fetch request env =
        (.ok { status := 405, body := .text "Method Not Allowed".toList }, env)) ∧
    (∀ fd, request.method = "POST".toList → request.formData = some fd →
      fd.get "password".toList = some (.str s) →
      ∃ r, fetch request env = (.ok r, env) ∧ r.status = 302 ∧
        r.headers.get "Location".toList = some "/".toList ∧
        r.headers.get "Set-Cookie".toList =
          some ("auth_token=".toList ++ s ++
            "; Path=/; HttpOnly; Max-Age=86400; SameSite=Lax".toList) ∧
        ∀ replay : Request, replay.url.pathname = "/".toList →
          replay.cookie = some ("auth_token=".toList ++ s) →
          ∃ r2, fetch replay env = (.ok r2, env) ∧ r2.status = 200 ∧
            r2.body = .page .htmlUpload) ∧
    (∀ fd, request.method = "POST".toList → request.formData = some fd →
      fd.get "password".toList ≠ some (.str s) →
      ∃ r, fetch request env = (.ok r, env) ∧ r.status = 403 ∧
        r.headers.get "Set-Cookie".toList = none) ∧
    (∀ other : Request, other.url.pathname = "/".toList →
      (∀ cookie, other.cookie = some cookie → ¬ ("auth_token=".toList ++ s) <:+: cookie) →
      ∃ r2, fetch other env = (.ok r2, env) ∧ r2.status = 200 ∧
        r2.body = .page .htmlLogin) := by
  have hroute : route request.url.pathname = some .loginAction := by rw [hpath]; decide
  have hfetch : fetch request env = (handleLoginAction request env, env) := by
    simp only [fetch, hroute]
  have hroot : ∀ q : Request, q.url.pathname = "/".toList →
      fetch q env = (handleAdminPage q env, env) := by
    intro q hq
    have : route q.url.pathname = some .adminPage := by rw [hq]; decide
    simp only [fetch, this]
  refine ⟨?_, ?_, ?_, ?_⟩
  · intro hm
    rw [hfetch]
    unfold handleLoginAction
    rw [if_pos (bne_iff_ne.mpr hm)]
  · intro fd hm hfd hpw
    refine ⟨loginRedirect s, ?_, (loginRedirect_headers s).1, (loginRedirect_headers s).2.1,
      (loginRedirect_headers s).2.2, ?_⟩
    · rw [hfetch]
      unfold handleLoginAction
      rw [hm, hfd, hs]
      simp only [bne_self_eq_false, Bool.false_eq_true, ↓reduceIte]
      rw [hpw]
      simp
    · intro replay hp hc
      refine ⟨⟨200, Headers.ofInit
        [("Content-Type".toList, "text/html;charset=UTF-8".toList)], .page .htmlUpload⟩,
        ?_, rfl, rfl⟩
      rw [hroot replay hp]
      simp only [handleAdminPage, isAuthorized_replay replay env s hs hc, Bool.not_true,
        Bool.false_eq_true, ↓reduceIte]
  · intro fd hm hfd hpw
    refine ⟨loginForbidden, ?_, rfl, by decide⟩
    rw [hfetch]
    unfold handleLoginAction
    rw [hm, hfd, hs]
    simp only [bne_self_eq_false, Bool.false_eq_true, ↓reduceIte]
    cases hp : fd.get "password".toList with
    | none => rfl
    | some v =>
      cases v with
      | file f => rfl
      | str p =>
        have hne : p ≠ s := by
          rintro rfl
          exact hpw hp
        simp [hne]
  · intro other hp hc
    refine ⟨⟨200, Headers.ofInit
      [("Content-Type".toList, "text/html;charset=UTF-8".toList)], .page .htmlLogin⟩,
      ?_, rfl, rfl⟩
    rw [hroot other hp]
    simp only [handleAdminPage, isAuthorized_without_cookie other env s hs hc, Bool.not_false,
      ↓reduceIte]

theorem login_flow_witness :
    ∃ r, fetch (sampleRequest "POST" "/auth/login" none
        (some [("password".toList, .str "s".toList)])) sampleEnv = (.ok r, sampleEnv) ∧
      r.status = 302 ∧
      r.headers.get "Location".toList = some "/".toList ∧
      r.headers.get "Set-Cookie".toList =
        some ("auth_token=".toList ++ "s".toList ++
          "; Path=/; HttpOnly; Max-Age=86400; SameSite=Lax".toList) ∧
      ∀ replay : Request, replay.url.pathname = "/".toList →
        replay.cookie = some ("auth_token=".toList ++ "s".toList) →
        ∃ r2, fetch replay sampleEnv = (.ok r2, sampleEnv) ∧ r2.status = 200 ∧
          r2.body = .page .htmlUpload :=
  (login_flow
    (sampleRequest "POST" "/auth/login" none (some [("password".toList, .str "s".toList)]))
    sampleEnv "s".toList rfl rfl).2.1 [("password".toList, .str "s".toList)] rfl rfl rfl

/-! ## Router -/

/-- C9, as stated, fails: `POST /`, `POST /api/icon` and `GET /auth/login` are
none of the five listed pairs, yet `fetch` passes them to a handler, which
answers 200 (the login page), 200 (the manifest) and 405. -/
theorem fetch_post_root_not_404 :
    route (sampleRequest "POST" "/" none none).url.pathname = some .adminPage ∧
    (fetch (sampleRequest "POST" "/" none none) sampleEnv).1 =
      .ok ⟨200, Headers.ofInit [("Content-Type".toList, "text/html;charset=UTF-8".toList)],
        .page .htmlLogin⟩ ∧
    route (sampleRequest "POST" "/api/icon" none none).url.pathname = some .apiJson ∧
    (fetch (sampleRequest "POST" "/api/icon" none none) sampleEnv).1 =
      .ok ⟨200, Headers.ofInit
          [("Content-Type".toList, "application/json;charset=UTF-8".toList),
           ("Access-Control-Allow-Origin".toList, "*".toList)],
        .json ⟨"Asonlino icon".toList, "By Asonlino".toList, []⟩⟩ ∧
    route (sampleRequest "GET" "/auth/login" none none).url.pathname = some .loginAction ∧
    (fetch (sampleRequest "GET" "/auth/login" none none) sampleEnv).1 =
      .ok ⟨405, [], .text "Method Not Allowed".toList⟩ :=
  ⟨by decide, rfl, by decide, rfl, by decide, rfl⟩

/-- C9, amended: the router dispatches on the path alone.  For every request,
whatever its method, `fetch` selects no handler exactly when the path neither
starts with `/file/` nor is one of `/`, `/api/icon`, `/auth/login`,
`/api/upload`; it then answers 404 `404 Not Found` and returns the environment
unchanged.  A request on any other path is passed to the handler of that
path, whatever its method: `handleServeImage` for a path starting with
`/file/`, `handleAdminPage` for `/`, `handleApiJson` for `/api/icon`,
`handleLoginAction` for `/auth/login`, `handleUploadAction` for `/api/upload`,
and the answer of `fetch` is the answer of that handler. -/
theorem fetch_dispatches_on_path (request : Request) (env : Env) :
    (route request.url.pathname = none ↔
      (startsWith request.url.pathname "/file/".toList = false ∧
        request.url.pathname ≠ "/".toList ∧
        request.url.pathname ≠ "/api/icon".toList ∧
        request.url.pathname ≠ "/auth/login".toList ∧
        request.url.pathname ≠ "/api/upload".toList)) ∧
    (route request.url.pathname = none →
      fetch request env =
        (.ok { status := 404, body := .text "404 Not Found".toList }, env)) ∧
    (startsWith request.url.pathname "/file/".toList = true →
      route request.url.pathname = some .serveImage ∧
      fetch request env = (handleServeImage request.url.pathname env, env)) ∧
    (request.url.pathname = "/".toList →
      route request.url.pathname = some .adminPage ∧
      fetch request env = (handleAdminPage request env, env)) ∧
    (request.url.pathname = "/api/icon".toList →
      route request.url.pathname = some .apiJson ∧
      fetch request env = (handleApiJson request env, env)) ∧
    (request.url.pathname = "/auth/login".toList →
      route request.url.pathname = some .loginAction ∧
      fetch request env = (handleLoginAction request env, env)) ∧
    (request.url.pathname = "/api/upload".toList →
      route request.url.pathname = some .uploadAction ∧
      fetch request env = handleUploadAction request env) := by
  refine ⟨?_, ?_, ?_, ?_, ?_, ?_, ?_⟩
  · unfold route
    constructor
    · intro h
      split_ifs at h with h1 h2 h3 h4 h5
      exact ⟨Bool.eq_false_iff.mpr h1, h2, h3, h4, h5⟩
    · rintro ⟨h1, h2, h3, h4, h5⟩
      rw [if_neg (by rw [h1]; exact Bool.false_ne_true), if_neg h2, if_neg h3, if_neg h4, if_neg h5]
  · intro h
    simp only [fetch, h]
  · intro h
    have hr : route request.url.pathname = some .serveImage := by
      unfold route
      rw [if_pos h]
    exact ⟨hr, by simp only [fetch, hr]⟩
  · intro h
    have hr : route request.url.pathname = some .adminPage := by rw [h]; decide
    exact ⟨hr, by simp only [fetch, hr]⟩
  · intro h
    have hr : route request.url.pathname = some .apiJson := by rw [h]; decide
    exact ⟨hr, by simp only [fetch, hr]⟩
  · intro h
    have hr : route request.url.pathname = some .loginAction := by rw [h]; decide
    exact ⟨hr, by simp only [fetch, hr]⟩
  · intro h
    have hr : route request.url.pathname = some .uploadAction := by rw [h]; decide
    exact ⟨hr, by simp only [fetch, hr]⟩

theorem fetch_dispatches_on_path_witness :
    (route (sampleRequest "DELETE" "/api/other" none none).url.pathname = none ∧
      fetch (sampleRequest "DELETE" "/api/other" none none) sampleEnv =
        (.ok { status := 404, body := .text "404 Not Found".toList }, sampleEnv)) ∧
    (route (sampleRequest "POST" "/file/a.png" none none).url.pathname = some .serveImage ∧
      fetch (sampleRequest "POST" "/file/a.png" none none) sampleEnv =
        (handleServeImage "/file/a.png".toList sampleEnv, sampleEnv)) ∧
    (route (sampleRequest "POST" "/api/icon" none none).url.pathname = some .apiJson ∧
      fetch (sampleRequest "POST" "/api/icon" none none) sampleEnv =
        (handleApiJson (sampleRequest "POST" "/api/icon" none none) sampleEnv, sampleEnv)) :=
  ⟨⟨by decide,
      (fetch_dispatches_on_path (sampleRequest "DELETE" "/api/other" none none)
        sampleEnv).2.1 (by decide)⟩,
    (fetch_dispatches_on_path (sampleRequest "POST" "/file/a.png" none none)
      sampleEnv).2.2.1 (by decide),
    (fetch_dispatches_on_path (sampleRequest "POST" "/api/icon" none none)
      sampleEnv).2.2.2.2.1 rfl⟩

/-! ## Reachable states -/

theorem route_upload_iff (path : JsString) :
    route path = some .uploadAction ↔ path = "/api/upload".toList := by
  constructor
  · intro h
    unfold route at h
    split_ifs at h with h1 h2 h3 h4 h5
    all_goals first | assumption | cases h
  · rintro rfl
    decide

theorem fetch_env_of_route_ne (request : Request) (env : Env)
    (h : route request.url.pathname ≠ some .uploadAction) : (fetch request env).2 = env := by
  cases hr : route request.url.pathname with
  | none => simp only [fetch, hr]
  | some handler =>
    cases handler with
    | uploadAction => exact absurd hr h
    | serveImage => simp only [fetch, hr]
    | adminPage => simp only [fetch, hr]
    | apiJson => simp only [fetch, hr]
    | loginAction => simp only [fetch, hr]

theorem fetch_upload (request : Request) (env : Env)
    (h : request.url.pathname = "/api/upload".toList) :
    fetch request env = handleUploadAction request env := by
  have hr : route request.url.pathname = some .uploadAction := (route_upload_iff _).mpr h
  simp only [fetch, hr]

theorem testLetters_object_file (f : JsFile) :
    testLetters (FormValue.file f).toJsString = false := by
  show testLetters "[object File]".toList = false
  decide

/-- The environment after `handleUploadAction`: either untouched, or the
request carries a valid upload. -/
theorem handleUploadAction_env_cases (request : Request) (env : Env) :
    (handleUploadAction request env).2 = env ∨
      ∃ fd file n, isAuthorized request env = true ∧ request.formData = some fd ∧
        fd.get "file".toList = some file ∧ file.truthy = true ∧
        fd.get "name".toList = some (.str n) ∧ testLetters n = true := by
  unfold handleUploadAction
  cases hauth : isAuthorized request env with
  | false => left; rfl
  | true =>
    cases hfd : request.formData with
    | none => left; rfl
    | some fd =>
      cases hfile : fd.get "file".toList with
      | none => left; simp only [Bool.not_true, Bool.false_eq_true, ↓reduceIte, hfile]
      | some file =>
        cases hname : fd.get "name".toList with
        | none => left; simp only [Bool.not_true, Bool.false_eq_true, ↓reduceIte, hfile, hname]
        | some name =>
          by_cases hbad : (!file.truthy || !name.truthy || !testLetters name.toJsString) = true
          · left
            simp only [Bool.not_true, Bool.false_eq_true, ↓reduceIte, hfile, hname, hbad]
          · right
            have hbad2 : (!file.truthy || !name.truthy || !testLetters name.toJsString)
                = false := Bool.eq_false_iff.mpr hbad
            simp only [Bool.or_eq_false_iff, Bool.not_eq_false'] at hbad2
            obtain ⟨⟨h1, _⟩, h3⟩ := hbad2
            cases name with
            | file f => rw [testLetters_object_file] at h3; exact absurd h3 Bool.false_ne_true
            | str n => exact ⟨fd, file, n, rfl, rfl, hfile, h1, hname, h3⟩

/-- A request that is not an authorised, valid upload leaves the environment
as it was. -/
theorem fetch_env_of_uploadOf_none (request : Request) (env : Env)
    (h : uploadOf request env = none) : (fetch request env).2 = env := by
  by_cases hp : request.url.pathname = "/api/upload".toList
  · rw [fetch_upload request env hp]
    rcases handleUploadAction_env_cases request env with h1 | ⟨fd, file, n, ha, hfd, hf, ht, hn, hl⟩
    · exact h1
    · exfalso
      unfold uploadOf at h
      rw [if_pos ⟨hp, ha⟩, hfd] at h
      simp only [hf, hn, ht, hl, and_self, ↓reduceIte] at h
      exact Option.some_ne_none _ h
  · exact fetch_env_of_route_ne request env (fun hr => hp ((route_upload_iff _).mp hr))

/-- An authorised, valid upload with both stores bound writes the file under
`n + ".png"` and maps `n` to `n + ".png"`. -/
theorem fetch_env_of_uploadOf_some (request : Request) (env : Env) (n : JsString)
    (file : FormValue) (bucket : R2Bucket) (kv : KVNamespace)
    (h : uploadOf request env = some (n, file))
    (hb : env.ICON_BUCKET = some bucket) (hkv : env.ICON_KV = some kv) :
    testLetters n = true ∧
    fetch request env =
      (.ok { body := .text "OK".toList },
        ⟨env.ADMIN_PASSWORD, some (bucket.put (n ++ ".png".toList) file),
          some (kv.put n (n ++ ".png".toList))⟩) := by
  unfold uploadOf at h
  split_ifs at h with hc
  obtain ⟨hp, ha⟩ := hc
  cases hfd : request.formData with
  | none => rw [hfd] at h; exact absurd h (Option.noConfusion)
  | some fd =>
    cases hfile : fd.get "file".toList with
    | none => simp only [hfd, hfile] at h; cases h
    | some file2 =>
      cases hname : fd.get "name".toList with
      | none => simp only [hfd, hfile, hname] at h; cases h
      | some name =>
        cases name with
        | file f => simp only [hfd, hfile, hname] at h; cases h
        | str m =>
          simp only [hfd, hfile, hname] at h
          split_ifs at h with hv
          obtain ⟨rfl, rfl⟩ := Prod.mk.inj (Option.some.inj h)
          refine ⟨hv.2, ?_⟩
          rw [fetch_upload request env hp]
          exact handleUploadAction_ok request env fd _ _ bucket kv ha hfd hfile hv.1 hname
            hv.2 hb hkv

theorem testLetters_iff (k : JsString) :
    testLetters k = true ↔ k ≠ [] ∧ ∀ c ∈ k, isLetter c = true := by
  unfold testLetters
  rw [Bool.and_eq_true, List.all_eq_true]
  cases k <;> simp

theorem uploadOf_congr (request : Request) (env env2 : Env)
    (h : env.ADMIN_PASSWORD = env2.ADMIN_PASSWORD) :
    uploadOf request env = uploadOf request env2 := by
  simp only [uploadOf, isAuthorized, h]

theorem StoresConsistent.empty (etagOf : Bytes → JsString)
    (metadataOf : FormValue → List (JsString × JsString)) :
    StoresConsistent ⟨∅, etagOf, metadataOf⟩ ∅ := by
  constructor
  · intro k v h
    simp [KVNamespace.get] at h
  · intro f h
    simp [R2Bucket.get] at h

/-- A valid upload keeps the layout of the two stores. -/
theorem StoresConsistent.put (bucket : R2Bucket) (kv : KVNamespace) (n : JsString)
    (file : FormValue) (h : StoresConsistent bucket kv) (hn : testLetters n = true) :
    StoresConsistent (bucket.put (n ++ ".png".toList) file)
      (kv.put n (n ++ ".png".toList)) := by
  obtain ⟨h1, h2⟩ := h
  constructor
  · intro k v hk
    by_cases hkn : k = n
    · subst hkn
      rw [KVNamespace.lookup_after_put] at hk
      refine ⟨(testLetters_iff k).mp hn, (Option.some.inj hk).symm, ?_⟩
      rw [R2Bucket.get_after_put]; rfl
    · rw [KVNamespace.lookup_after_put_other _ _ _ _ hkn] at hk
      obtain ⟨a, b, c⟩ := h1 k v hk
      refine ⟨a, b, ?_⟩
      rw [R2Bucket.get_after_put_other _ _ _ _ (fun e => hkn (List.append_cancel_right e))]
      exact c
  · intro f hf
    by_cases hfn : f = n ++ ".png".toList
    · exact ⟨n, by rw [KVNamespace.lookup_after_put]; rfl, hfn⟩
    · rw [R2Bucket.get_after_put_other _ _ _ _ hfn] at hf
      obtain ⟨k, hk, e⟩ := h2 f hf
      refine ⟨k, ?_, e⟩
      rw [KVNamespace.lookup_after_put_other _ _ _ _ (fun ekn => hfn (by rw [e, ekn]))]
      exact hk

/-- Along a run with both stores bound, the secret and the bindings stay, the
layout of the stores is kept, and every object of the object store was there
at the start or was written by a valid upload of the run. -/
theorem run_invariant (requests : List Request) :
    ∀ (env : Env) (bucket : R2Bucket) (kv : KVNamespace),
      env.ICON_BUCKET = some bucket → env.ICON_KV = some kv → StoresConsistent bucket kv →
      ∃ b2 kv2, run env requests = ⟨env.ADMIN_PASSWORD, some b2, some kv2⟩ ∧
        StoresConsistent b2 kv2 ∧
        ∀ f, (b2.get f).isSome = true →
          (bucket.get f).isSome = true ∨
            ∃ r ∈ requests, ∃ n file, uploadOf r env = some (n, file) ∧
              f = n ++ ".png".toList := by
  induction requests with
  | nil =>
    intro env bucket kv hb hkv hc
    refine ⟨bucket, kv, ?_, hc, fun f hf => Or.inl hf⟩
    cases env
    simp only at hb hkv
    rw [hb, hkv]; rfl
  | cons r rest ih =>
    intro env bucket kv hb hkv hc
    cases hu : uploadOf r env with
    | none =>
      have he : (fetch r env).2 = env := fetch_env_of_uploadOf_none r env hu
      obtain ⟨b2, kv2, hrun, hc2, hsrc⟩ := ih env bucket kv hb hkv hc
      refine ⟨b2, kv2, ?_, hc2, ?_⟩
      · rw [run, he]; exact hrun
      · intro f hf
        rcases hsrc f hf with h | ⟨q, hq, n, file, hqu, e⟩
        · exact Or.inl h
        · exact Or.inr ⟨q, List.mem_cons_of_mem _ hq, n, file, hqu, e⟩
    | some nf =>
      obtain ⟨n, file⟩ := nf
      obtain ⟨hn, hf⟩ := fetch_env_of_uploadOf_some r env n file bucket kv hu hb hkv
      obtain ⟨b2, kv2, hrun, hc2, hsrc⟩ := ih
        ⟨env.ADMIN_PASSWORD, some (bucket.put (n ++ ".png".toList) file),
          some (kv.put n (n ++ ".png".toList))⟩ _ _ rfl rfl
        (StoresConsistent.put bucket kv n file hc hn)
      refine ⟨b2, kv2, ?_, hc2, ?_⟩
      · rw [run, hf]; exact hrun
      · intro f hfs
        rcases hsrc f hfs with h | ⟨q, hq, m, file2, hqu, e⟩
        · by_cases hfn : f = n ++ ".png".toList
          · exact Or.inr ⟨r, List.mem_cons_self _ _, n, file, hu, hfn⟩
          · rw [R2Bucket.get_after_put_other _ _ _ _ hfn] at h
            exact Or.inl h
        · refine Or.inr ⟨q, List.mem_cons_of_mem _ hq, m, file2, ?_, e⟩
          rw [← hqu]
          exact uploadOf_congr q _ _ rfl

/-- After a run from empty stores in which no request is a valid upload under
the name `n`, no object is stored under `n + ".png"`. -/
theorem run_never_uploaded (secret : Option JsString) (etagOf : Bytes → JsString)
    (metadataOf : FormValue → List (JsString × JsString)) (requests : List Request)
    (n : JsString)
    (hnever : ∀ r ∈ requests, ∀ file,
      uploadOf r ⟨secret, some ⟨∅, etagOf, metadataOf⟩, some ∅⟩ ≠ some (n, file)) :
    ∃ b2 kv2, run ⟨secret, some ⟨∅, etagOf, metadataOf⟩, some ∅⟩ requests =
        ⟨secret, some b2, some kv2⟩ ∧ b2.get (n ++ ".png".toList) = none := by
  obtain ⟨b2, kv2, hrun, _, hsrc⟩ := run_invariant requests
    ⟨secret, some ⟨∅, etagOf, metadataOf⟩, some ∅⟩ _ _ rfl rfl
    (StoresConsistent.empty etagOf metadataOf)
  refine ⟨b2, kv2, hrun, ?_⟩
  cases hget : b2.get (n ++ ".png".toList) with
  | none => rfl
  | some object =>
    exfalso
    rcases hsrc (n ++ ".png".toList) (by rw [hget]; rfl) with h | ⟨r, hr, m, file, hu, e⟩
    · simp [R2Bucket.get] at h
    · have hmn : n = m := List.append_cancel_right e
      subst hmn
      exact hnever r hr file hu

/-- C10: from empty object and directory stores, after any finite sequence of
requests handled one at a time through `fetch`, both stores are still bound,
every key `k` of the directory store is a non-empty string of ASCII letters
mapped to `k + ".png"`, the object store has an object under `k + ".png"` for
each such `k`, every key of the object store is `k + ".png"` for a key `k` of
the directory store, and a request that is not an authorised, valid upload
leaves the environment, hence both stores, unchanged. -/
theorem reachable_stores_consistent (secret : Option JsString) (etagOf : Bytes → JsString)
    (metadataOf : FormValue → List (JsString × JsString)) (requests : List Request) :
    ∃ bucket kv,
      run ⟨secret, some ⟨∅, etagOf, metadataOf⟩, some ∅⟩ requests =
        ⟨secret, some bucket, some kv⟩ ∧
      StoresConsistent bucket kv ∧
      ∀ request : Request,
        uploadOf request (run ⟨secret, some ⟨∅, etagOf, metadataOf⟩, some ∅⟩ requests) = none →
        (fetch request (run ⟨secret, some ⟨∅, etagOf, metadataOf⟩, some ∅⟩ requests)).2 =
          run ⟨secret, some ⟨∅, etagOf, metadataOf⟩, some ∅⟩ requests := by
  obtain ⟨b2, kv2, hrun, hc, _⟩ := run_invariant requests
    ⟨secret, some ⟨∅, etagOf, metadataOf⟩, some ∅⟩ _ _ rfl rfl
    (StoresConsistent.empty etagOf metadataOf)
  exact ⟨b2, kv2, hrun, hc, fun request h => fetch_env_of_uploadOf_none request _ h⟩

theorem reachable_stores_consistent_witness :
    ∃ bucket kv,
      run sampleEnv
          [sampleRequest "POST" "/api/upload" (some "auth_token=s")
            (some (sampleForm "abc" [1, 2])),
           sampleRequest "GET" "/api/icon" none none] =
        ⟨some "s".toList, some bucket, some kv⟩ ∧
      StoresConsistent bucket kv := by
  obtain ⟨bucket, kv, h1, h2, _⟩ := reachable_stores_consistent (some "s".toList)
    (fun _ => "e0".toList) (fun _ => [])
    [sampleRequest "POST" "/api/upload" (some "auth_token=s") (some (sampleForm "abc" [1, 2])),
     sampleRequest "GET" "/api/icon" none none]
  exact ⟨bucket, kv, h1, h2⟩

/-! ## File serving -/

/-- C7: for every path `"/file/" + f` and every environment,
`handleServeImage` looks up the key `f`, the path tail verbatim, and answers
500 when the object store binding is absent, otherwise 404 when no object is
stored under `f`, otherwise 200 with the stored object as body, its stored
etag in `etag`, and `Cache-Control: public, max-age=31536000`.  In particular,
after a run from empty stores in which no request is a valid upload under the
name `n`, serving `/file/<n>.png` answers 404 (whether a request is a valid
upload depends on the environment through the secret only, which a run does
not change, so `uploadOf` is read in the initial environment). -/
theorem serve_image_cases (f : JsString) (env : Env) :
    (env.ICON_BUCKET = none →
      handleServeImage ("/file/".toList ++ f) env =
        .ok { status := 500,
              body := .text "Server Configuration Error: R2 Not Bound".toList }) ∧
    (∀ bucket, env.ICON_BUCKET = some bucket → bucket.get f = none →
      handleServeImage ("/file/".toList ++ f) env =
        .ok { status := 404, body := .text "Image not found".toList }) ∧
    (∀ bucket object, env.ICON_BUCKET = some bucket → bucket.get f = some object →
      ∃ r, handleServeImage ("/file/".toList ++ f) env = .ok r ∧
        r.status = 200 ∧ r.body = .bytes object.body ∧
        r.headers.get "etag".toList = some object.httpEtag ∧
        r.headers.get "Cache-Control".toList = some "public, max-age=31536000".toList) ∧
    (∀ (secret : Option JsString) (etagOf : Bytes → JsString)
      (metadataOf : FormValue → List (JsString × JsString)) (requests : List Request)
      (n : JsString),
      (∀ r ∈ requests, ∀ file,
        uploadOf r ⟨secret, some ⟨∅, etagOf, metadataOf⟩, some ∅⟩ ≠ some (n, file)) →
      handleServeImage ("/file/".toList ++ n ++ ".png".toList)
          (run ⟨secret, some ⟨∅, etagOf, metadataOf⟩, some ∅⟩ requests) =
        .ok { status := 404, body := .text "Image not found".toList }) := by
  refine ⟨handleServeImage_unbound _ env, handleServeImage_missing f env, ?_, ?_⟩
  · intro bucket object hb hget
    refine ⟨_, handleServeImage_found f env bucket object hb hget, rfl, rfl, ?_, ?_⟩
    · rw [Headers.get_after_set_other _ _ _ _ (by decide)]
      exact Headers.get_after_set _ _ _
    · exact Headers.get_after_set _ _ _
  · intro secret etagOf metadataOf requests n hnever
    obtain ⟨b2, kv2, hrun, hget⟩ := run_never_uploaded secret etagOf metadataOf requests n hnever
    rw [hrun, List.append_assoc]
    exact handleServeImage_missing _ _ b2 rfl hget

theorem serve_image_cases_witness :
    ∃ r, handleServeImage ("/file/".toList ++ "a.png".toList)
        ⟨none, some ⟨AList.insert "a.png".toList
          ⟨[1, 2], "e1".toList, [("Cache-Control".toList, "no-store".toList)]⟩ ∅,
          fun _ => [], fun _ => []⟩, none⟩ = .ok r ∧
      r.status = 200 ∧ r.body = .bytes [1, 2] ∧
      r.headers.get "etag".toList = some "e1".toList ∧
      r.headers.get "Cache-Control".toList = some "public, max-age=31536000".toList :=
  (serve_image_cases "a.png".toList
    ⟨none, some ⟨AList.insert "a.png".toList
      ⟨[1, 2], "e1".toList, [("Cache-Control".toList, "no-store".toList)]⟩ ∅,
      fun _ => [], fun _ => []⟩, none⟩).2.2.1 _
    ⟨[1, 2], "e1".toList, [("Cache-Control".toList, "no-store".toList)]⟩ rfl rfl

end IconWorker
